import Mathlib

/-!
Shallow embedding of `src/core/src/types/helpers.rs`: the binary codec
helpers of the opcua core (error translation, little-endian scalar codec,
length-prefixed array codec).

Modelling conventions:
* A stream is a list of bytes (`Nat`, each byte taken mod 256 at the point
  where the source serializes a machine word).
* `EncodingResult` is `Except` over the two error sentinels
  `BAD_ENCODING_ERROR` / `BAD_DECODING_ERROR` of the source, modelled by the
  two-constructor type `EncError`.
* The raw I/O layer (`std::io`) yields `IOResult`, whose error carries the
  underlying diagnostic detail (modelled as a `String`); the translation
  functions `process_encode_io_result` / `process_decode_io_result` collapse
  it, exactly as the source does.
* The write stream is the byte-sink model (as in the repository's use of
  `Vec<u8>` writers): `streamWrite` appends the buffer and reports its
  length. `streamReadExact` models `Read::read_exact`: it fails unless the
  requested number of bytes is available.
* Unsigned scalars are `Nat` reduced mod `2 ^ width`; signed scalars are
  `Int`, serialized by two's complement (`v % 2 ^ width` as a `Nat`);
  `f32` / `f64` values are represented by their IEEE-754 bit patterns
  (`Nat` below `2 ^ 32` / `2 ^ 64`), since `LittleEndian::write_f32/f64`
  and `read_f32/f64` transport exactly those bits.
-/

/-- Error sentinels of the source: `BAD_ENCODING_ERROR` and `BAD_DECODING_ERROR`. -/
inductive EncError where
  | badEncoding
  | badDecoding
deriving DecidableEq

deriving instance DecidableEq for Except

/-- Diagnostic detail carried by a raw `std::io::Error` (logged, then discarded). -/
abbrev IOError := String

/-- Raw `std::io::Result<T>`. -/
abbrev IOResult (T : Type) := Except IOError T

/-- The source's `EncodingResult<T>`. -/
abbrev EncodingResult (T : Type) := Except EncError T

/-- Write-stream state: the bytes written so far. -/
abbrev WStream := List Nat

/-- Read-stream state: the bytes still available. -/
abbrev RStream := List Nat

/-- Raw `Write::write` on the byte-sink stream: appends the buffer and
reports the number of bytes written. -/
def streamWrite (stream : WStream) (buf : List Nat) : WStream × IOResult Nat :=
  (stream ++ buf, Except.ok buf.length)

/-- Raw `Read::read_exact`: yields the next `n` bytes when available,
otherwise the underlying I/O error. -/
def streamReadExact (stream : RStream) (n : Nat) : RStream × IOResult (List Nat) :=
  if n ≤ stream.length then (stream.drop n, Except.ok (stream.take n))
  else (stream, Except.error "failed to fill whole buffer")

/-- Source `process_encode_io_result`: collapse a raw write outcome to
`BAD_ENCODING_ERROR` or the byte count. -/
def process_encode_io_result (result : IOResult Nat) : EncodingResult Nat :=
  match result with
  | Except.error _ => Except.error EncError.badEncoding
  | Except.ok n => Except.ok n

/-- Source `process_decode_io_result`: collapse a raw read outcome to
`BAD_DECODING_ERROR` or the read value. -/
def process_decode_io_result {T : Type} (result : IOResult T) : EncodingResult T :=
  match result with
  | Except.error _ => Except.error EncError.badDecoding
  | Except.ok v => Except.ok v

/-- Little-endian byte serialization of a natural number into `w` bytes
(the semantics of `byteorder::LittleEndian::write_*`). -/
def natToLE : Nat → Nat → List Nat
  | 0, _ => []
  | w + 1, n => n % 256 :: natToLE w (n / 256)

/-- Little-endian byte deserialization (the semantics of
`byteorder::LittleEndian::read_*` before sign interpretation). -/
def leToNat (buf : List Nat) : Nat :=
  buf.foldr (fun b acc => b + 256 * acc) 0

/-- Two's-complement reinterpretation of a `w`-byte unsigned value as a
signed integer. -/
def toSigned (w : Nat) (n : Nat) : Int :=
  if n < 2 ^ (8 * w - 1) then (n : Int) else (n : Int) - 2 ^ (8 * w)

/-- Source `write_u8`. -/
def write_u8 (stream : WStream) (value : Nat) : WStream × EncodingResult Nat :=
  let buf := natToLE 1 value
  let res := streamWrite stream buf
  (res.1, process_encode_io_result res.2)

/-- Source `write_i16`. -/
def write_i16 (stream : WStream) (value : Int) : WStream × EncodingResult Nat :=
  let buf := natToLE 2 ((value % (2 : Int) ^ 16).toNat)
  let res := streamWrite stream buf
  (res.1, process_encode_io_result res.2)

/-- Source `write_u16`. -/
def write_u16 (stream : WStream) (value : Nat) : WStream × EncodingResult Nat :=
  let buf := natToLE 2 value
  let res := streamWrite stream buf
  (res.1, process_encode_io_result res.2)

/-- Source `write_i32`. -/
def write_i32 (stream : WStream) (value : Int) : WStream × EncodingResult Nat :=
  let buf := natToLE 4 ((value % (2 : Int) ^ 32).toNat)
  let res := streamWrite stream buf
  (res.1, process_encode_io_result res.2)

/-- Source `write_u32`. -/
def write_u32 (stream : WStream) (value : Nat) : WStream × EncodingResult Nat :=
  let buf := natToLE 4 value
  let res := streamWrite stream buf
  (res.1, process_encode_io_result res.2)

/-- Source `write_i64`. -/
def write_i64 (stream : WStream) (value : Int) : WStream × EncodingResult Nat :=
  let buf := natToLE 8 ((value % (2 : Int) ^ 64).toNat)
  let res := streamWrite stream buf
  (res.1, process_encode_io_result res.2)

/-- Source `write_u64`. -/
def write_u64 (stream : WStream) (value : Nat) : WStream × EncodingResult Nat :=
  let buf := natToLE 8 value
  let res := streamWrite stream buf
  (res.1, process_encode_io_result res.2)

/-- Source `write_f32` (value represented by its IEEE-754 bit pattern). -/
def write_f32 (stream : WStream) (bits : Nat) : WStream × EncodingResult Nat :=
  let buf := natToLE 4 bits
  let res := streamWrite stream buf
  (res.1, process_encode_io_result res.2)

/-- Source `write_f64` (value represented by its IEEE-754 bit pattern). -/
def write_f64 (stream : WStream) (bits : Nat) : WStream × EncodingResult Nat :=
  let buf := natToLE 8 bits
  let res := streamWrite stream buf
  (res.1, process_encode_io_result res.2)

/-- Source `read_bytes`: fill a caller-supplied buffer of length `bufLen`
exactly, returning its length. -/
def read_bytes (stream : RStream) (bufLen : Nat) : RStream × EncodingResult Nat :=
  let res := streamReadExact stream bufLen
  match process_decode_io_result res.2 with
  | Except.error err => (res.1, Except.error err)
  | Except.ok _ => (res.1, Except.ok bufLen)

/-- Source `read_u8`. -/
def read_u8 (stream : RStream) : RStream × EncodingResult Nat :=
  let res := streamReadExact stream 1
  match process_decode_io_result res.2 with
  | Except.error err => (res.1, Except.error err)
  | Except.ok buf => (res.1, Except.ok (leToNat buf))

/-- Source `read_i16`. -/
def read_i16 (stream : RStream) : RStream × EncodingResult Int :=
  let res := streamReadExact stream 2
  match process_decode_io_result res.2 with
  | Except.error err => (res.1, Except.error err)
  | Except.ok buf => (res.1, Except.ok (toSigned 2 (leToNat buf)))

/-- Source `read_u16`. -/
def read_u16 (stream : RStream) : RStream × EncodingResult Nat :=
  let res := streamReadExact stream 2
  match process_decode_io_result res.2 with
  | Except.error err => (res.1, Except.error err)
  | Except.ok buf => (res.1, Except.ok (leToNat buf))

/-- Source `read_i32`. -/
def read_i32 (stream : RStream) : RStream × EncodingResult Int :=
  let res := streamReadExact stream 4
  match process_decode_io_result res.2 with
  | Except.error err => (res.1, Except.error err)
  | Except.ok buf => (res.1, Except.ok (toSigned 4 (leToNat buf)))

/-- Source `read_u32`. -/
def read_u32 (stream : RStream) : RStream × EncodingResult Nat :=
  let res := streamReadExact stream 4
  match process_decode_io_result res.2 with
  | Except.error err => (res.1, Except.error err)
  | Except.ok buf => (res.1, Except.ok (leToNat buf))

/-- Source `read_i64`. -/
def read_i64 (stream : RStream) : RStream × EncodingResult Int :=
  let res := streamReadExact stream 8
  match process_decode_io_result res.2 with
  | Except.error err => (res.1, Except.error err)
  | Except.ok buf => (res.1, Except.ok (toSigned 8 (leToNat buf)))

/-- Source `read_u64`. -/
def read_u64 (stream : RStream) : RStream × EncodingResult Nat :=
  let res := streamReadExact stream 8
  match process_decode_io_result res.2 with
  | Except.error err => (res.1, Except.error err)
  | Except.ok buf => (res.1, Except.ok (leToNat buf))

/-- Source `read_f32` (result represented by its IEEE-754 bit pattern). -/
def read_f32 (stream : RStream) : RStream × EncodingResult Nat :=
  let res := streamReadExact stream 4
  match process_decode_io_result res.2 with
  | Except.error err => (res.1, Except.error err)
  | Except.ok buf => (res.1, Except.ok (leToNat buf))

/-- Source `read_f64` (result represented by its IEEE-754 bit pattern). -/
def read_f64 (stream : RStream) : RStream × EncodingResult Nat :=
  let res := streamReadExact stream 8
  match process_decode_io_result res.2 with
  | Except.error err => (res.1, Except.error err)
  | Except.ok buf => (res.1, Except.ok (leToNat buf))

/-- The `BinaryEncoder<T>` contract of the source: a type that reports its
serialized byte length, encodes itself onto a stream, and decodes a new
instance from a stream. -/
structure BinaryEncoder (T : Type) where
  byte_len : T → Nat
  encode : WStream → T → WStream × EncodingResult Nat
  decode : RStream → RStream × EncodingResult T

/-- Source `byte_len_array`: 4 for the length prefix, plus each element's
reported byte length when the array is present. -/
def byte_len_array {T : Type} (e : BinaryEncoder T) (values : Option (List T)) : Nat :=
  match values with
  | some vs => vs.foldl (fun size v => size + e.byte_len v) 4
  | none => 4

/-- The element loop of source `write_array`: encode each element in order,
accumulating the byte count, aborting on the first error. -/
def writeElems {T : Type} (e : BinaryEncoder T) : List T → WStream → Nat → WStream × EncodingResult Nat
  | [], stream, size => (stream, Except.ok size)
  | v :: rest, stream, size =>
    match e.encode stream v with
    | (stream1, Except.error err) => (stream1, Except.error err)
    | (stream1, Except.ok n) => writeElems e rest stream1 (size + n)

/-- Source `write_array`: `-1` prefix for an absent array; otherwise the
element count as an `i32` followed by each element's encoding in order. -/
def write_array {T : Type} (e : BinaryEncoder T) (stream : WStream)
    (values : Option (List T)) : WStream × EncodingResult Nat :=
  match values with
  | some vs =>
    match write_i32 stream (Int.ofNat vs.length) with
    | (stream1, Except.error err) => (stream1, Except.error err)
    | (stream1, Except.ok n) => writeElems e vs stream1 n
  | none => write_i32 stream (-1)

/-- The element loop of source `read_array`: decode `n` elements in order,
aborting on the first error (the Rust `for _ in 0..len` loop with `push`). -/
def readN {T : Type} (e : BinaryEncoder T) : Nat → RStream → RStream × EncodingResult (List T)
  | 0, stream => (stream, Except.ok [])
  | n + 1, stream =>
    match e.decode stream with
    | (stream1, Except.error err) => (stream1, Except.error err)
    | (stream1, Except.ok v) =>
      match readN e n stream1 with
      | (stream2, Except.error err) => (stream2, Except.error err)
      | (stream2, Except.ok vs) => (stream2, Except.ok (v :: vs))

/-- Source `read_array`: read an `i32` length, return `none` when it is
`-1`, otherwise decode `len.toNat` elements (the Rust range `0..len` is
empty for negative `len`). -/
def read_array {T : Type} (e : BinaryEncoder T) (stream : RStream) :
    RStream × EncodingResult (Option (List T)) :=
  match read_i32 stream with
  | (stream1, Except.error err) => (stream1, Except.error err)
  | (stream1, Except.ok len) =>
    if len = -1 then (stream1, Except.ok none)
    else
      match readN e len.toNat stream1 with
      | (stream2, Except.error err) => (stream2, Except.error err)
      | (stream2, Except.ok vs) => (stream2, Except.ok (some vs))

/-- Concrete element codec used as a test fixture: a byte (`u8`). -/
def byteEncoder : BinaryEncoder Nat :=
  { byte_len := fun _ => 1, encode := write_u8, decode := read_u8 }

/-- Concrete element codec used as a test fixture: a `u16`. -/
def u16Encoder : BinaryEncoder Nat :=
  { byte_len := fun _ => 2, encode := write_u16, decode := read_u16 }

/-- Test-fixture codec whose encode fails (with `BAD_ENCODING_ERROR`) on
values that do not fit in a byte. -/
def fussyEncoder : BinaryEncoder Nat :=
  { byte_len := fun _ => 1
    encode := fun s v => if v < 256 then write_u8 s v else (s, Except.error EncError.badEncoding)
    decode := read_u8 }

/-- A well-behaved element encoder for `v`: it succeeds, appends exactly
the bytes it produces, appends as many bytes as `byte_len v` reports, and
returns that count. -/
def WellBehaved {T : Type} (e : BinaryEncoder T) (v : T) : Prop :=
  ∀ s : WStream, ∃ extra : List Nat,
    e.encode s v = (s ++ extra, Except.ok (e.byte_len v)) ∧ extra.length = e.byte_len v

/-! Supporting lemmas about the little-endian serialization helpers and the
stream primitives. -/

lemma natToLE_length (w n : Nat) : (natToLE w n).length = w := by
  induction w generalizing n with
  | zero => simp [natToLE]
  | succ w ih => simp [natToLE, ih]

lemma pow256_eq (w : Nat) : (256 : Nat) ^ w = 2 ^ (8 * w) := by
  rw [show (256 : Nat) = 2 ^ 8 from rfl, ← pow_mul]

lemma leToNat_natToLE (w n : Nat) (h : n < 256 ^ w) : leToNat (natToLE w n) = n := by
  induction w generalizing n with
  | zero => simp [natToLE, leToNat]; omega
  | succ w ih =>
    have hdiv : n / 256 < 256 ^ w := by
      rw [Nat.div_lt_iff_lt_mul (by norm_num)]
      calc n < 256 ^ (w + 1) := h
        _ = 256 ^ w * 256 := by rw [pow_succ]
    simp only [natToLE, leToNat, List.foldr_cons]
    have hih := ih (n / 256) hdiv
    simp only [leToNat] at hih
    rw [hih]
    exact Nat.mod_add_div n 256

lemma natToLE_getD (w : Nat) : ∀ (n i : Nat), i < w →
    (natToLE w n).getD i 0 = n / 256 ^ i % 256 := by
  induction w with
  | zero => intro n i h; omega
  | succ w ih =>
    intro n i h
    cases i with
    | zero => simp [natToLE]
    | succ i =>
      have := ih (n / 256) i (by omega)
      simp only [natToLE, List.getD_cons_succ, this]
      rw [Nat.div_div_eq_div_mul]
      rw [pow_succ, Nat.mul_comm 256 (256 ^ i)]

lemma toNat_emod_lt (v : Int) (C : Nat) (hC : 0 < C) : (v % (C : Int)).toNat < C := by
  have h0 : ((C : Int)) ≠ 0 := by exact_mod_cast hC.ne'
  have h1 := Int.emod_nonneg v h0
  have h2 := Int.emod_lt_of_pos v (show (0 : Int) < (C : Int) by exact_mod_cast hC)
  omega

lemma signed_reinterpret (H M : Nat) (hH : 0 < H) (hMH : M = H * 2) (v : Int)
    (h1 : -(H : Int) ≤ v) (h2 : v < (H : Int)) :
    (if ((v % (M : Int)).toNat) < H then (((v % (M : Int)).toNat : Int))
     else ((v % (M : Int)).toNat : Int) - (M : Int)) = v := by
  have hMpos : (0 : Int) < (M : Int) := by
    have : 0 < M := by omega
    exact_mod_cast this
  have e1 : 0 ≤ v % (M : Int) := Int.emod_nonneg v hMpos.ne'
  have e2 : v % (M : Int) < (M : Int) := Int.emod_lt_of_pos v hMpos
  have hMI : (M : Int) = (H : Int) * 2 := by exact_mod_cast congrArg (Nat.cast : Nat → Int) hMH
  rcases le_or_lt 0 v with hv | hv
  · have hlt : v < (M : Int) := by omega
    rw [Int.emod_eq_of_lt hv hlt]
    split <;> omega
  · have hmod : v % (M : Int) = v + M := by
      have step := Int.add_mul_emod_self_left v ((M : Int)) 1
      rw [mul_one] at step
      rw [← step]
      apply Int.emod_eq_of_lt <;> omega
    rw [hmod]
    split <;> omega

lemma toSigned_emod (w : Nat) (hw : 0 < w) (v : Int)
    (hlo : -((2 : Int) ^ (8 * w - 1)) ≤ v) (hhi : v < (2 : Int) ^ (8 * w - 1)) :
    toSigned w ((v % (2 : Int) ^ (8 * w)).toNat) = v := by
  have hM : ((2 : Int) ^ (8 * w)) = ((2 ^ (8 * w) : Nat) : Int) := by push_cast; ring
  have hHc : ((2 : Int) ^ (8 * w - 1)) = ((2 ^ (8 * w - 1) : Nat) : Int) := by push_cast; ring
  have hMH : (2 ^ (8 * w) : Nat) = 2 ^ (8 * w - 1) * 2 := by
    rw [← pow_succ]
    congr 1
    omega
  rw [hHc] at hlo hhi
  simp only [toSigned]
  rw [hM]
  exact signed_reinterpret (2 ^ (8 * w - 1)) (2 ^ (8 * w)) (Nat.pos_pow_of_pos _ (by norm_num))
    hMH v (by exact_mod_cast hlo) (by exact_mod_cast hhi)

lemma streamReadExact_front (hdr rest : List Nat) (n : Nat) (h : hdr.length = n) :
    streamReadExact (hdr ++ rest) n = (rest, Except.ok hdr) := by
  subst h
  rw [streamReadExact, if_pos (by simp)]
  simp

lemma streamReadExact_short (s : RStream) (n : Nat) (h : s.length < n) :
    streamReadExact s n = (s, Except.error "failed to fill whole buffer") := by
  rw [streamReadExact, if_neg (by omega)]

/-! Closed forms for the scalar writers: each appends exactly its
little-endian buffer and reports the type's width. -/

lemma write_u8_eq (s : WStream) (v : Nat) :
    write_u8 s v = (s ++ natToLE 1 v, Except.ok 1) := by
  simp [write_u8, streamWrite, process_encode_io_result, natToLE_length]

lemma write_i16_eq (s : WStream) (v : Int) :
    write_i16 s v = (s ++ natToLE 2 ((v % (2 : Int) ^ 16).toNat), Except.ok 2) := by
  simp [write_i16, streamWrite, process_encode_io_result, natToLE_length]

lemma write_u16_eq (s : WStream) (v : Nat) :
    write_u16 s v = (s ++ natToLE 2 v, Except.ok 2) := by
  simp [write_u16, streamWrite, process_encode_io_result, natToLE_length]

lemma write_i32_eq (s : WStream) (v : Int) :
    write_i32 s v = (s ++ natToLE 4 ((v % (2 : Int) ^ 32).toNat), Except.ok 4) := by
  simp [write_i32, streamWrite, process_encode_io_result, natToLE_length]

lemma write_u32_eq (s : WStream) (v : Nat) :
    write_u32 s v = (s ++ natToLE 4 v, Except.ok 4) := by
  simp [write_u32, streamWrite, process_encode_io_result, natToLE_length]

lemma write_i64_eq (s : WStream) (v : Int) :
    write_i64 s v = (s ++ natToLE 8 ((v % (2 : Int) ^ 64).toNat), Except.ok 8) := by
  simp [write_i64, streamWrite, process_encode_io_result, natToLE_length]

lemma write_u64_eq (s : WStream) (v : Nat) :
    write_u64 s v = (s ++ natToLE 8 v, Except.ok 8) := by
  simp [write_u64, streamWrite, process_encode_io_result, natToLE_length]

lemma write_f32_eq (s : WStream) (bits : Nat) :
    write_f32 s bits = (s ++ natToLE 4 bits, Except.ok 4) := by
  simp [write_f32, streamWrite, process_encode_io_result, natToLE_length]

lemma write_f64_eq (s : WStream) (bits : Nat) :
    write_f64 s bits = (s ++ natToLE 8 bits, Except.ok 8) := by
  simp [write_f64, streamWrite, process_encode_io_result, natToLE_length]

/-! Closed forms for the scalar readers on a stream that starts with a full
buffer of the type's width. -/

lemma read_u8_front (hdr rest : List Nat) (h : hdr.length = 1) :
    read_u8 (hdr ++ rest) = (rest, Except.ok (leToNat hdr)) := by
  simp [read_u8, streamReadExact_front hdr rest 1 h, process_decode_io_result]

lemma read_i16_front (hdr rest : List Nat) (h : hdr.length = 2) :
    read_i16 (hdr ++ rest) = (rest, Except.ok (toSigned 2 (leToNat hdr))) := by
  simp [read_i16, streamReadExact_front hdr rest 2 h, process_decode_io_result]

lemma read_u16_front (hdr rest : List Nat) (h : hdr.length = 2) :
    read_u16 (hdr ++ rest) = (rest, Except.ok (leToNat hdr)) := by
  simp [read_u16, streamReadExact_front hdr rest 2 h, process_decode_io_result]

lemma read_i32_front (hdr rest : List Nat) (h : hdr.length = 4) :
    read_i32 (hdr ++ rest) = (rest, Except.ok (toSigned 4 (leToNat hdr))) := by
  simp [read_i32, streamReadExact_front hdr rest 4 h, process_decode_io_result]

lemma read_u32_front (hdr rest : List Nat) (h : hdr.length = 4) :
    read_u32 (hdr ++ rest) = (rest, Except.ok (leToNat hdr)) := by
  simp [read_u32, streamReadExact_front hdr rest 4 h, process_decode_io_result]

lemma read_i64_front (hdr rest : List Nat) (h : hdr.length = 8) :
    read_i64 (hdr ++ rest) = (rest, Except.ok (toSigned 8 (leToNat hdr))) := by
  simp [read_i64, streamReadExact_front hdr rest 8 h, process_decode_io_result]

lemma read_u64_front (hdr rest : List Nat) (h : hdr.length = 8) :
    read_u64 (hdr ++ rest) = (rest, Except.ok (leToNat hdr)) := by
  simp [read_u64, streamReadExact_front hdr rest 8 h, process_decode_io_result]

lemma read_f32_front (hdr rest : List Nat) (h : hdr.length = 4) :
    read_f32 (hdr ++ rest) = (rest, Except.ok (leToNat hdr)) := by
  simp [read_f32, streamReadExact_front hdr rest 4 h, process_decode_io_result]

lemma read_f64_front (hdr rest : List Nat) (h : hdr.length = 8) :
    read_f64 (hdr ++ rest) = (rest, Except.ok (leToNat hdr)) := by
  simp [read_f64, streamReadExact_front hdr rest 8 h, process_decode_io_result]

/-! Loop lemmas for the array codec. -/

lemma foldl_byte_len {T : Type} (e : BinaryEncoder T) (vs : List T) (c : Nat) :
    vs.foldl (fun size v => size + e.byte_len v) c = c + (vs.map e.byte_len).sum := by
  induction vs generalizing c with
  | nil => simp
  | cons v vs ih =>
    simp only [List.foldl_cons, List.map_cons, List.sum_cons, ih]
    omega

lemma writeElems_wellBehaved {T : Type} (e : BinaryEncoder T) (vs : List T)
    (h : ∀ v ∈ vs, WellBehaved e v) (s : WStream) (acc : Nat) :
    ∃ out : List Nat,
      writeElems e vs s acc = (s ++ out, Except.ok (acc + (vs.map e.byte_len).sum)) ∧
      out.length = (vs.map e.byte_len).sum := by
  induction vs generalizing s acc with
  | nil => exact ⟨[], by simp [writeElems], by simp⟩
  | cons v vs ih =>
    obtain ⟨extra, henc, hlen⟩ := h v (by simp) s
    obtain ⟨out, hrec, hout⟩ :=
      ih (fun u hu => h u (by simp [hu])) (s ++ extra) (acc + e.byte_len v)
    refine ⟨extra ++ out, ?_, ?_⟩
    · simp only [writeElems, henc, hrec, List.map_cons, List.sum_cons]
      rw [List.append_assoc, Nat.add_assoc]
    · simp [hlen, hout]

lemma writeElems_functional {T : Type} (e : BinaryEncoder T) (f : T → List Nat)
    (hf : ∀ (s : WStream) (v : T), e.encode s v = (s ++ f v, Except.ok (f v).length))
    (vs : List T) (s : WStream) (acc : Nat) :
    writeElems e vs s acc =
      (s ++ (vs.map f).flatten, Except.ok (acc + ((vs.map f).flatten).length)) := by
  induction vs generalizing s acc with
  | nil => simp [writeElems]
  | cons v vs ih =>
    simp only [writeElems, hf s v, ih, List.map_cons, List.flatten_cons]
    rw [List.append_assoc]
    congr 2
    simp [List.length_append]
    omega

lemma writeElems_abort {T : Type} (e : BinaryEncoder T) (vs1 : List T) (v : T)
    (vs2 : List T) (s s2 : WStream) (acc acc2 : Nat) (err : EncError)
    (hpre : writeElems e vs1 s acc = (s2, Except.ok acc2))
    (hfail : (e.encode s2 v).2 = Except.error err) :
    (writeElems e (vs1 ++ v :: vs2) s acc).2 = Except.error err := by
  induction vs1 generalizing s acc with
  | nil =>
    simp only [writeElems, Prod.mk.injEq, Except.ok.injEq] at hpre
    obtain ⟨rfl, rfl⟩ := hpre
    simp only [List.nil_append, writeElems]
    rcases hdec : e.encode s v with ⟨t, r⟩
    rw [hdec] at hfail
    cases r with
    | error err2 =>
      simp only at hfail
      simp [hfail]
    | ok n => simp at hfail
  | cons u vs1 ih =>
    simp only [writeElems] at hpre ⊢
    rcases hdec : e.encode s u with ⟨t, r⟩
    rw [hdec] at hpre
    cases r with
    | error err2 => simp at hpre
    | ok n =>
      simp only [List.cons_append, writeElems, hdec]
      exact ih t (acc + n) hpre

lemma readN_ok_length {T : Type} (e : BinaryEncoder T) (n : Nat) :
    ∀ (s s2 : RStream) (vs : List T), readN e n s = (s2, Except.ok vs) → vs.length = n := by
  induction n with
  | zero =>
    intro s s2 vs h
    simp only [readN, Prod.mk.injEq, Except.ok.injEq] at h
    simp [← h.2]
  | succ n ih =>
    intro s s2 vs h
    simp only [readN] at h
    split at h
    · simp at h
    · rename_i s1 v heq
      split at h
      · simp at h
      · rename_i s3 vs2 heq2
        simp only [Prod.mk.injEq, Except.ok.injEq] at h
        rw [← h.2]
        simp [ih _ _ _ heq2]

lemma readN_split_fail {T : Type} (e : BinaryEncoder T) (err : EncError) (k : Nat) :
    ∀ (m : Nat) (s s_k : RStream) (vs_k : List T),
      readN e k s = (s_k, Except.ok vs_k) →
      (e.decode s_k).2 = Except.error err →
      (readN e (k + (m + 1)) s).2 = Except.error err := by
  induction k with
  | zero =>
    intro m s s_k vs_k hsucc hfail
    simp only [readN, Prod.mk.injEq, Except.ok.injEq] at hsucc
    obtain ⟨rfl, -⟩ := hsucc
    rw [Nat.zero_add]
    simp only [readN]
    rcases hdec : e.decode s with ⟨t, r⟩
    rw [hdec] at hfail
    cases r with
    | error err2 =>
      injection hfail with hfail
      subst hfail
      simp [hdec]
    | ok v => simp at hfail
  | succ k ih =>
    intro m s s_k vs_k hsucc hfail
    simp only [readN] at hsucc
    split at hsucc
    · simp at hsucc
    · rename_i s1 v heq
      split at hsucc
      · simp at hsucc
      · rename_i s3 vs2 heq2
        simp only [Prod.mk.injEq, Except.ok.injEq] at hsucc
        obtain ⟨rfl, -⟩ := hsucc
        have harith : k + 1 + (m + 1) = (k + (m + 1)) + 1 := by omega
        rw [harith]
        have hres := ih m s1 s3 vs2 heq2 hfail
        rcases hfin : readN e (k + (m + 1)) s1 with ⟨s4, r3⟩
        rw [hfin] at hres
        have hstep : readN e ((k + (m + 1)) + 1) s =
            match e.decode s with
            | (t1, Except.error err2) => (t1, Except.error err2)
            | (t1, Except.ok v2) =>
              match readN e (k + (m + 1)) t1 with
              | (t2, Except.error err2) => (t2, Except.error err2)
              | (t2, Except.ok vs3) => (t2, Except.ok (v2 :: vs3)) := rfl
        cases r3 with
        | error err2 =>
          injection hres with hres
          subst hres
          rw [hstep]
          simp [heq, hfin]
        | ok vs3 => simp at hres

lemma streamReadExact_ok (s : RStream) (n : Nat) (h : n ≤ s.length) :
    streamReadExact s n = (s.drop n, Except.ok (s.take n)) := by
  rw [streamReadExact, if_pos h]

lemma unsigned_roundtrip (w v : Nat) (hv : v < 2 ^ (8 * w))
    (wr : WStream → Nat → WStream × EncodingResult Nat)
    (rd : RStream → RStream × EncodingResult Nat)
    (hwr : wr [] v = ([] ++ natToLE w v, Except.ok w))
    (hrd : rd (natToLE w v ++ []) = ([], Except.ok (leToNat (natToLE w v)))) :
    rd ((wr [] v).1) = ([], Except.ok v) := by
  rw [List.append_nil] at hrd
  have hval : leToNat (natToLE w v) = v := leToNat_natToLE w v (by rw [pow256_eq]; exact hv)
  rw [hval] at hrd
  rw [hwr]
  exact hrd

lemma signed_roundtrip (w : Nat) (hw : 0 < w) (v : Int)
    (hlo : -((2 : Int) ^ (8 * w - 1)) ≤ v) (hhi : v < (2 : Int) ^ (8 * w - 1))
    (wr : WStream → Int → WStream × EncodingResult Nat)
    (rd : RStream → RStream × EncodingResult Int)
    (hwr : wr [] v = ([] ++ natToLE w ((v % (2 : Int) ^ (8 * w)).toNat), Except.ok w))
    (hrd : rd (natToLE w ((v % (2 : Int) ^ (8 * w)).toNat) ++ []) =
      ([], Except.ok (toSigned w (leToNat (natToLE w ((v % (2 : Int) ^ (8 * w)).toNat)))))) :
    rd ((wr [] v).1) = ([], Except.ok v) := by
  rw [List.append_nil] at hrd
  have hmlt : ((v % (2 : Int) ^ (8 * w)).toNat) < 256 ^ w := by
    rw [pow256_eq]
    have hC : (0 : Nat) < 2 ^ (8 * w) := Nat.pos_pow_of_pos _ (by norm_num)
    have hcast : ((2 : Int) ^ (8 * w)) = ((2 ^ (8 * w) : Nat) : Int) := by push_cast; ring
    rw [hcast]
    exact toNat_emod_lt v (2 ^ (8 * w)) hC
  rw [leToNat_natToLE w _ hmlt, toSigned_emod w hw v hlo hhi] at hrd
  rw [hwr]
  exact hrd

/-- C1: for every element type, `write_array` of an absent array writes
exactly the 4 bytes of little-endian signed `-1` (`FF FF FF FF`),
`write_array` of a present-but-empty array writes exactly the 4 bytes of
little-endian signed `0` (`00 00 00 00`), the two outputs differ, and
`read_array` on each output returns the original tri-state. -/
theorem helpers_null_empty_distinction {T : Type} (e : BinaryEncoder T) :
    write_array e [] none = ([255, 255, 255, 255], Except.ok 4) ∧
    write_array e [] (some []) = ([0, 0, 0, 0], Except.ok 4) ∧
    ([255, 255, 255, 255] : List Nat) ≠ [0, 0, 0, 0] ∧
    read_array e [255, 255, 255, 255] = ([], Except.ok none) ∧
    read_array e [0, 0, 0, 0] = ([], Except.ok (some [])) := by
  refine ⟨rfl, ?_, by decide, rfl, rfl⟩
  have h1 : write_array e [] (some []) = write_i32 [] (Int.ofNat 0) := rfl
  have h2 : write_i32 [] (Int.ofNat 0) = ([0, 0, 0, 0], Except.ok 4) := rfl
  exact h1.trans h2

/-- C8: `process_encode_io_result` yields `BadEncoding` on any raw write
error and the byte count on success; `process_decode_io_result` yields
`BadDecoding` on any raw read error and the value on success; the
underlying I/O error detail never influences the outcome (all distinct
errors collapse to the same sentinel). -/
theorem helpers_error_translation :
    (∀ e : IOError, process_encode_io_result (Except.error e) =
      Except.error EncError.badEncoding) ∧
    (∀ n : Nat, process_encode_io_result (Except.ok n) = Except.ok n) ∧
    (∀ e1 e2 : IOError, process_encode_io_result (Except.error e1) =
      process_encode_io_result (Except.error e2)) ∧
    (∀ (T : Type) (e : IOError), @process_decode_io_result T (Except.error e) =
      Except.error EncError.badDecoding) ∧
    (∀ (T : Type) (v : T), process_decode_io_result (Except.ok v) = Except.ok v) ∧
    (∀ (T : Type) (e1 e2 : IOError), @process_decode_io_result T (Except.error e1) =
      @process_decode_io_result T (Except.error e2)) :=
  ⟨fun _ => rfl, fun _ => rfl, fun _ _ => rfl, fun _ _ => rfl, fun _ _ => rfl,
   fun _ _ _ => rfl⟩

/-- C4: `read_array` first reads a 4-byte little-endian signed length; `-1`
yields the absent array; a non-negative length `n` makes it decode exactly
`n` elements in order from the remaining stream (a successful result always
has exactly `n` elements), returning a present array. -/
theorem helpers_read_array_length_contract {T : Type} (e : BinaryEncoder T)
    (hdr rest : List Nat) (h4 : hdr.length = 4) :
    (toSigned 4 (leToNat hdr) = -1 →
      read_array e (hdr ++ rest) = (rest, Except.ok none)) ∧
    (∀ n : Nat, toSigned 4 (leToNat hdr) = (n : Int) →
      read_array e (hdr ++ rest) =
        (match readN e n rest with
          | (s2, Except.error err) => (s2, Except.error err)
          | (s2, Except.ok vs) => (s2, Except.ok (some vs))) ∧
      (∀ (s2 : RStream) (vs : List T), readN e n rest = (s2, Except.ok vs) →
        vs.length = n)) := by
  constructor
  · intro hm1
    simp [read_array, read_i32_front hdr rest h4, hm1]
  · intro n hn
    refine ⟨?_, fun s2 vs h => readN_ok_length e n rest s2 vs h⟩
    simp only [read_array, read_i32_front hdr rest h4, hn]
    rw [if_neg (by omega), show ((n : Int)).toNat = n by simp]

/-- C4 witness: concrete absent (`FF FF FF FF`) and two-element (`02 00 00
00`) length prefixes over the byte codec. -/
theorem helpers_read_array_length_contract_witness :
    read_array byteEncoder ([255, 255, 255, 255] ++ [3]) = ([3], Except.ok none) ∧
    read_array byteEncoder ([2, 0, 0, 0] ++ [7, 8, 9]) =
      (match readN byteEncoder 2 [7, 8, 9] with
        | (s2, Except.error err) => (s2, Except.error err)
        | (s2, Except.ok vs) => (s2, Except.ok (some vs))) :=
  ⟨(helpers_read_array_length_contract byteEncoder [255, 255, 255, 255] [3]
      (by decide)).1 (by decide),
   ((helpers_read_array_length_contract byteEncoder [2, 0, 0, 0] [7, 8, 9]
      (by decide)).2 2 (by decide)).1⟩

/-- C5: if the `k`-th element decode fails (with `BadDecoding`) while
`read_array` is reading an array of declared count `n` with `k < n`, the
whole call returns `BadDecoding` — never a partially populated array. -/
theorem helpers_read_array_element_failure {T : Type} (e : BinaryEncoder T)
    (hdr rest : List Nat) (n k : Nat) (s_k : RStream) (vs_k : List T)
    (h4 : hdr.length = 4) (hn : toSigned 4 (leToNat hdr) = (n : Int)) (hk : k < n)
    (hsucc : readN e k rest = (s_k, Except.ok vs_k))
    (hfail : (e.decode s_k).2 = Except.error EncError.badDecoding) :
    (read_array e (hdr ++ rest)).2 = Except.error EncError.badDecoding := by
  obtain ⟨m, rfl⟩ : ∃ m, n = k + (m + 1) := ⟨n - k - 1, by omega⟩
  have hdrop := readN_split_fail e EncError.badDecoding k m rest s_k vs_k hsucc hfail
  simp only [read_array, read_i32_front hdr rest h4, hn]
  rw [if_neg (by omega), show (((k + (m + 1) : Nat) : Int)).toNat = k + (m + 1) by omega]
  rcases hfin : readN e (k + (m + 1)) rest with ⟨s4, r3⟩
  rw [hfin] at hdrop
  cases r3 with
  | error err2 => simpa using hdrop
  | ok vs3 => simp at hdrop

/-- C5 witness: declared count 2 over the byte codec, with only one byte of
element data available, fails with `BadDecoding`. -/
theorem helpers_read_array_element_failure_witness :
    (read_array byteEncoder ([2, 0, 0, 0] ++ [7])).2 =
      Except.error EncError.badDecoding :=
  helpers_read_array_element_failure byteEncoder [2, 0, 0, 0] [7] 2 1 [] [7]
    (by decide) (by decide) (by decide) (by decide) (by decide)

/-- C10: a 4-byte length prefix that is negative but not `-1` (such as
`-2`) makes `read_array` succeed with a present, empty array, consuming
only the prefix — indistinguishable at the caller from a prefix of `0`. -/
theorem helpers_read_array_negative_length {T : Type} (e : BinaryEncoder T)
    (hdr rest : List Nat) (h4 : hdr.length = 4)
    (hneg : toSigned 4 (leToNat hdr) < 0) (hne : toSigned 4 (leToNat hdr) ≠ -1) :
    read_array e (hdr ++ rest) = (rest, Except.ok (some [])) := by
  simp only [read_array, read_i32_front hdr rest h4]
  rw [if_neg hne]
  rw [Int.toNat_of_nonpos (le_of_lt hneg)]
  simp [readN]

/-- C10 witness: prefix `FE FF FF FF` (`-2`) over the byte codec returns a
present empty array and leaves the rest of the stream unread. -/
theorem helpers_read_array_negative_length_witness :
    read_array byteEncoder ([254, 255, 255, 255] ++ [9]) = ([9], Except.ok (some [])) :=
  helpers_read_array_negative_length byteEncoder [254, 255, 255, 255] [9]
    (by decide) (by decide) (by decide)

/-- C3: whenever every element's encode is well-behaved (it succeeds,
appending exactly the bytes it reports as its byte length and returning
that count), `byte_len_array` equals both the byte count `write_array`
returns and the number of bytes it appends: 4 when absent, 4 plus the sum
of the elements' reported byte lengths when present. -/
theorem helpers_byte_len_array_matches_write {T : Type} (e : BinaryEncoder T)
    (values : Option (List T)) (s : WStream)
    (h : ∀ vs, values = some vs → ∀ v ∈ vs, WellBehaved e v) :
    ∃ out : List Nat,
      write_array e s values = (s ++ out, Except.ok (byte_len_array e values)) ∧
      out.length = byte_len_array e values := by
  cases values with
  | none =>
    refine ⟨natToLE 4 (((-1 : Int) % (2 : Int) ^ 32).toNat), ?_, ?_⟩
    · show write_i32 s (-1) = _
      rw [write_i32_eq]
      rfl
    · rw [natToLE_length]
      rfl
  | some vs =>
    have hbl : byte_len_array e (some vs) = 4 + (vs.map e.byte_len).sum := by
      simp [byte_len_array, foldl_byte_len]
    obtain ⟨out, hrun, hlen⟩ := writeElems_wellBehaved e vs (h vs rfl)
      (s ++ natToLE 4 ((Int.ofNat vs.length % (2 : Int) ^ 32).toNat)) 4
    refine ⟨natToLE 4 ((Int.ofNat vs.length % (2 : Int) ^ 32).toNat) ++ out, ?_, ?_⟩
    · simp only [write_array, write_i32_eq]
      rw [hrun, hbl, List.append_assoc]
    · simp [natToLE_length, hlen, hbl]

/-- C3 witness: the two-element `u16` array `[1, 256]`, whose codec is
well-behaved, at the empty initial stream. -/
theorem helpers_byte_len_array_matches_write_witness :
    ∃ out : List Nat,
      write_array u16Encoder [] (some [1, 256]) =
        ([] ++ out, Except.ok (byte_len_array u16Encoder (some [1, 256]))) ∧
      out.length = byte_len_array u16Encoder (some [1, 256]) :=
  helpers_byte_len_array_matches_write u16Encoder (some [1, 256]) []
    (fun _ _ v _ s => ⟨natToLE 2 v, write_u16_eq s v, natToLE_length 2 v⟩)

/-- C7: `write_array` writes `FF FF FF FF` alone for an absent array; for a
present array it writes the element count as a 4-byte signed integer and
then runs the element loop starting from count 4; the element loop aborts
with the first encoding error, and when every element encode appends its
bytes it writes the concatenation in order and returns the total; in
particular the `u16` array `[1, 256]` encodes to `02 00 00 00 01 00 00 01`. -/
theorem helpers_write_array_contract {T : Type} (e : BinaryEncoder T) :
    (∀ s : WStream, write_array e s none = (s ++ [255, 255, 255, 255], Except.ok 4)) ∧
    (∀ (s : WStream) (vs : List T),
      write_array e s (some vs) =
        writeElems e vs (s ++ natToLE 4 ((Int.ofNat vs.length % (2 : Int) ^ 32).toNat)) 4) ∧
    (∀ (vs1 : List T) (v : T) (vs2 : List T) (s s2 : WStream) (acc acc2 : Nat)
      (err : EncError),
      writeElems e vs1 s acc = (s2, Except.ok acc2) →
      (e.encode s2 v).2 = Except.error err →
      (writeElems e (vs1 ++ v :: vs2) s acc).2 = Except.error err) ∧
    (∀ (f : T → List Nat),
      (∀ (s : WStream) (v : T), e.encode s v = (s ++ f v, Except.ok (f v).length)) →
      ∀ (vs : List T) (s : WStream) (acc : Nat),
        writeElems e vs s acc =
          (s ++ (vs.map f).flatten, Except.ok (acc + ((vs.map f).flatten).length))) ∧
    write_array u16Encoder [] (some [1, 256]) = ([2, 0, 0, 0, 1, 0, 0, 1], Except.ok 8) := by
  refine ⟨?_, ?_, ?_, ?_, ?_⟩
  · intro s
    show write_i32 s (-1) = _
    rw [write_i32_eq]
    rfl
  · intro s vs
    simp only [write_array, write_i32_eq]
  · exact fun vs1 v vs2 s s2 acc acc2 err hpre hfail =>
      writeElems_abort e vs1 v vs2 s s2 acc acc2 err hpre hfail
  · exact fun f hf vs s acc => writeElems_functional e f hf vs s acc
  · decide

/-- C7 witness: the abort conjunct at a concrete failing element encoder
and the total-bytes conjunct at the byte codec. -/
theorem helpers_write_array_contract_witness :
    (writeElems fussyEncoder ([7] ++ 300 :: []) [] 4).2 =
      Except.error EncError.badEncoding ∧
    writeElems byteEncoder [1, 2] [] 4 =
      ([] ++ (([1, 2].map fun v => [v % 256]).flatten),
        Except.ok (4 + (([1, 2].map fun v => [v % 256]).flatten).length)) :=
  ⟨(helpers_write_array_contract fussyEncoder).2.2.1 [7] 300 [] [] [7] 4 5
      EncError.badEncoding (by decide) (by decide),
   (helpers_write_array_contract byteEncoder).2.2.2.1 (fun v => [v % 256])
      (fun _ _ => rfl) [1, 2] [] 4⟩

/-- C2: for every scalar type, decoding the bytes produced by encoding a
representable value reproduces it exactly (floats are carried by their
IEEE-754 bit patterns, which `write_f32/64` and `read_f32/64` transport
verbatim, so this is bit-pattern round-tripping, NaN and infinities
included). -/
theorem helpers_scalar_roundtrip :
    (∀ v : Nat, v < 2 ^ 8 → read_u8 ((write_u8 [] v).1) = ([], Except.ok v)) ∧
    (∀ v : Int, -(2 ^ 15) ≤ v → v < 2 ^ 15 →
      read_i16 ((write_i16 [] v).1) = ([], Except.ok v)) ∧
    (∀ v : Nat, v < 2 ^ 16 → read_u16 ((write_u16 [] v).1) = ([], Except.ok v)) ∧
    (∀ v : Int, -(2 ^ 31) ≤ v → v < 2 ^ 31 →
      read_i32 ((write_i32 [] v).1) = ([], Except.ok v)) ∧
    (∀ v : Nat, v < 2 ^ 32 → read_u32 ((write_u32 [] v).1) = ([], Except.ok v)) ∧
    (∀ v : Int, -(2 ^ 63) ≤ v → v < 2 ^ 63 →
      read_i64 ((write_i64 [] v).1) = ([], Except.ok v)) ∧
    (∀ v : Nat, v < 2 ^ 64 → read_u64 ((write_u64 [] v).1) = ([], Except.ok v)) ∧
    (∀ bits : Nat, bits < 2 ^ 32 → read_f32 ((write_f32 [] bits).1) = ([], Except.ok bits)) ∧
    (∀ bits : Nat, bits < 2 ^ 64 → read_f64 ((write_f64 [] bits).1) = ([], Except.ok bits)) := by
  refine ⟨?_, ?_, ?_, ?_, ?_, ?_, ?_, ?_, ?_⟩
  · exact fun v hv => unsigned_roundtrip 1 v hv write_u8 read_u8 (write_u8_eq [] v)
      (read_u8_front (natToLE 1 v) [] (natToLE_length 1 v))
  · exact fun v h1 h2 => signed_roundtrip 2 (by norm_num) v h1 h2 write_i16 read_i16
      (write_i16_eq [] v) (read_i16_front (natToLE 2 ((v % (2 : Int) ^ 16).toNat)) []
        (natToLE_length 2 _))
  · exact fun v hv => unsigned_roundtrip 2 v hv write_u16 read_u16 (write_u16_eq [] v)
      (read_u16_front (natToLE 2 v) [] (natToLE_length 2 v))
  · exact fun v h1 h2 => signed_roundtrip 4 (by norm_num) v h1 h2 write_i32 read_i32
      (write_i32_eq [] v) (read_i32_front (natToLE 4 ((v % (2 : Int) ^ 32).toNat)) []
        (natToLE_length 4 _))
  · exact fun v hv => unsigned_roundtrip 4 v hv write_u32 read_u32 (write_u32_eq [] v)
      (read_u32_front (natToLE 4 v) [] (natToLE_length 4 v))
  · exact fun v h1 h2 => signed_roundtrip 8 (by norm_num) v h1 h2 write_i64 read_i64
      (write_i64_eq [] v) (read_i64_front (natToLE 8 ((v % (2 : Int) ^ 64).toNat)) []
        (natToLE_length 8 _))
  · exact fun v hv => unsigned_roundtrip 8 v hv write_u64 read_u64 (write_u64_eq [] v)
      (read_u64_front (natToLE 8 v) [] (natToLE_length 8 v))
  · exact fun bits hv => unsigned_roundtrip 4 bits hv write_f32 read_f32
      (write_f32_eq [] bits) (read_f32_front (natToLE 4 bits) [] (natToLE_length 4 bits))
  · exact fun bits hv => unsigned_roundtrip 8 bits hv write_f64 read_f64
      (write_f64_eq [] bits) (read_f64_front (natToLE 8 bits) [] (natToLE_length 8 bits))

/-- C2 witness: round trips at extreme values — `u8` 255, `i16` minimum,
`u16` maximum, `i32` minimum, `u32` maximum, `i64` minimum, `u64` maximum,
the `f32` quiet-NaN bit pattern `0x7FC00000`, and the `f64` `+Infinity`
bit pattern `0x7FF0000000000000`. -/
theorem helpers_scalar_roundtrip_witness :
    read_u8 ((write_u8 [] 255).1) = ([], Except.ok 255) ∧
    read_i16 ((write_i16 [] (-32768)).1) = ([], Except.ok (-32768)) ∧
    read_u16 ((write_u16 [] 65535).1) = ([], Except.ok 65535) ∧
    read_i32 ((write_i32 [] (-2147483648)).1) = ([], Except.ok (-2147483648)) ∧
    read_u32 ((write_u32 [] 4294967295).1) = ([], Except.ok 4294967295) ∧
    read_i64 ((write_i64 [] (-9223372036854775808)).1) =
      ([], Except.ok (-9223372036854775808)) ∧
    read_u64 ((write_u64 [] 18446744073709551615).1) =
      ([], Except.ok 18446744073709551615) ∧
    read_f32 ((write_f32 [] 2143289344).1) = ([], Except.ok 2143289344) ∧
    read_f64 ((write_f64 [] 9218868437227405312).1) =
      ([], Except.ok 9218868437227405312) :=
  ⟨helpers_scalar_roundtrip.1 255 (by norm_num),
   helpers_scalar_roundtrip.2.1 (-32768) (by norm_num) (by norm_num),
   helpers_scalar_roundtrip.2.2.1 65535 (by norm_num),
   helpers_scalar_roundtrip.2.2.2.1 (-2147483648) (by norm_num) (by norm_num),
   helpers_scalar_roundtrip.2.2.2.2.1 4294967295 (by norm_num),
   helpers_scalar_roundtrip.2.2.2.2.2.1 (-9223372036854775808) (by norm_num) (by norm_num),
   helpers_scalar_roundtrip.2.2.2.2.2.2.1 18446744073709551615 (by norm_num),
   helpers_scalar_roundtrip.2.2.2.2.2.2.2.1 2143289344 (by norm_num),
   helpers_scalar_roundtrip.2.2.2.2.2.2.2.2 9218868437227405312 (by norm_num)⟩

/-- C6: every scalar decoder (and `read_bytes` for any requested buffer
length) fails with `BadDecoding` when the stream holds fewer bytes than the
type's width and returns no partial value; with enough bytes it succeeds,
consuming exactly the type's width. -/
theorem helpers_scalar_short_read_fails (s : RStream) :
    ((s.length < 1 → (read_u8 s).2 = Except.error EncError.badDecoding) ∧
     (1 ≤ s.length → ∃ v, read_u8 s = (s.drop 1, Except.ok v))) ∧
    ((s.length < 2 → (read_i16 s).2 = Except.error EncError.badDecoding) ∧
     (2 ≤ s.length → ∃ v, read_i16 s = (s.drop 2, Except.ok v))) ∧
    ((s.length < 2 → (read_u16 s).2 = Except.error EncError.badDecoding) ∧
     (2 ≤ s.length → ∃ v, read_u16 s = (s.drop 2, Except.ok v))) ∧
    ((s.length < 4 → (read_i32 s).2 = Except.error EncError.badDecoding) ∧
     (4 ≤ s.length → ∃ v, read_i32 s = (s.drop 4, Except.ok v))) ∧
    ((s.length < 4 → (read_u32 s).2 = Except.error EncError.badDecoding) ∧
     (4 ≤ s.length → ∃ v, read_u32 s = (s.drop 4, Except.ok v))) ∧
    ((s.length < 8 → (read_i64 s).2 = Except.error EncError.badDecoding) ∧
     (8 ≤ s.length → ∃ v, read_i64 s = (s.drop 8, Except.ok v))) ∧
    ((s.length < 8 → (read_u64 s).2 = Except.error EncError.badDecoding) ∧
     (8 ≤ s.length → ∃ v, read_u64 s = (s.drop 8, Except.ok v))) ∧
    ((s.length < 4 → (read_f32 s).2 = Except.error EncError.badDecoding) ∧
     (4 ≤ s.length → ∃ v, read_f32 s = (s.drop 4, Except.ok v))) ∧
    ((s.length < 8 → (read_f64 s).2 = Except.error EncError.badDecoding) ∧
     (8 ≤ s.length → ∃ v, read_f64 s = (s.drop 8, Except.ok v))) ∧
    (∀ n : Nat,
      (s.length < n → (read_bytes s n).2 = Except.error EncError.badDecoding) ∧
      (n ≤ s.length → read_bytes s n = (s.drop n, Except.ok n))) := by
  refine ⟨⟨?_, ?_⟩, ⟨?_, ?_⟩, ⟨?_, ?_⟩, ⟨?_, ?_⟩, ⟨?_, ?_⟩, ⟨?_, ?_⟩, ⟨?_, ?_⟩,
    ⟨?_, ?_⟩, ⟨?_, ?_⟩, fun n => ⟨?_, ?_⟩⟩
  · intro h
    simp [read_u8, streamReadExact_short s 1 h, process_decode_io_result]
  · intro h
    exact ⟨leToNat (s.take 1),
      by simp [read_u8, streamReadExact_ok s 1 h, process_decode_io_result]⟩
  · intro h
    simp [read_i16, streamReadExact_short s 2 h, process_decode_io_result]
  · intro h
    exact ⟨toSigned 2 (leToNat (s.take 2)),
      by simp [read_i16, streamReadExact_ok s 2 h, process_decode_io_result]⟩
  · intro h
    simp [read_u16, streamReadExact_short s 2 h, process_decode_io_result]
  · intro h
    exact ⟨leToNat (s.take 2),
      by simp [read_u16, streamReadExact_ok s 2 h, process_decode_io_result]⟩
  · intro h
    simp [read_i32, streamReadExact_short s 4 h, process_decode_io_result]
  · intro h
    exact ⟨toSigned 4 (leToNat (s.take 4)),
      by simp [read_i32, streamReadExact_ok s 4 h, process_decode_io_result]⟩
  · intro h
    simp [read_u32, streamReadExact_short s 4 h, process_decode_io_result]
  · intro h
    exact ⟨leToNat (s.take 4),
      by simp [read_u32, streamReadExact_ok s 4 h, process_decode_io_result]⟩
  · intro h
    simp [read_i64, streamReadExact_short s 8 h, process_decode_io_result]
  · intro h
    exact ⟨toSigned 8 (leToNat (s.take 8)),
      by simp [read_i64, streamReadExact_ok s 8 h, process_decode_io_result]⟩
  · intro h
    simp [read_u64, streamReadExact_short s 8 h, process_decode_io_result]
  · intro h
    exact ⟨leToNat (s.take 8),
      by simp [read_u64, streamReadExact_ok s 8 h, process_decode_io_result]⟩
  · intro h
    simp [read_f32, streamReadExact_short s 4 h, process_decode_io_result]
  · intro h
    exact ⟨leToNat (s.take 4),
      by simp [read_f32, streamReadExact_ok s 4 h, process_decode_io_result]⟩
  · intro h
    simp [read_f64, streamReadExact_short s 8 h, process_decode_io_result]
  · intro h
    exact ⟨leToNat (s.take 8),
      by simp [read_f64, streamReadExact_ok s 8 h, process_decode_io_result]⟩
  · intro h
    simp [read_bytes, streamReadExact_short s n h, process_decode_io_result]
  · intro h
    simp [read_bytes, streamReadExact_ok s n h, process_decode_io_result]

/-- C6 witness: a one-byte stream decodes as `u8` but fails as `i16`, and
`read_bytes` fails for a 3-byte buffer while filling a 1-byte buffer. -/
theorem helpers_scalar_short_read_fails_witness :
    (read_i16 [5]).2 = Except.error EncError.badDecoding ∧
    (∃ v, read_u8 [5] = (([5] : List Nat).drop 1, Except.ok v)) ∧
    (read_bytes [5] 3).2 = Except.error EncError.badDecoding ∧
    read_bytes [5] 1 = (([5] : List Nat).drop 1, Except.ok 1) :=
  ⟨(helpers_scalar_short_read_fails [5]).2.1.1 (by decide),
   (helpers_scalar_short_read_fails [5]).1.2 (by decide),
   ((helpers_scalar_short_read_fails [5]).2.2.2.2.2.2.2.2.2 3).1 (by decide),
   ((helpers_scalar_short_read_fails [5]).2.2.2.2.2.2.2.2.2 1).2 (by decide)⟩

/-- C9: each scalar encoder serializes into a buffer of exactly the type's
width (1, 2, 4, or 8 bytes) in little-endian order (byte `i` of the buffer
is `value / 256 ^ i % 256`), appends exactly that buffer to the stream, and
returns the width as the bytes-written count. -/
theorem helpers_scalar_encode_le :
    (∀ (s : WStream) (v : Nat), write_u8 s v = (s ++ natToLE 1 v, Except.ok 1)) ∧
    (∀ (s : WStream) (v : Int),
      write_i16 s v = (s ++ natToLE 2 ((v % (2 : Int) ^ 16).toNat), Except.ok 2)) ∧
    (∀ (s : WStream) (v : Nat), write_u16 s v = (s ++ natToLE 2 v, Except.ok 2)) ∧
    (∀ (s : WStream) (v : Int),
      write_i32 s v = (s ++ natToLE 4 ((v % (2 : Int) ^ 32).toNat), Except.ok 4)) ∧
    (∀ (s : WStream) (v : Nat), write_u32 s v = (s ++ natToLE 4 v, Except.ok 4)) ∧
    (∀ (s : WStream) (v : Int),
      write_i64 s v = (s ++ natToLE 8 ((v % (2 : Int) ^ 64).toNat), Except.ok 8)) ∧
    (∀ (s : WStream) (v : Nat), write_u64 s v = (s ++ natToLE 8 v, Except.ok 8)) ∧
    (∀ (s : WStream) (bits : Nat), write_f32 s bits = (s ++ natToLE 4 bits, Except.ok 4)) ∧
    (∀ (s : WStream) (bits : Nat), write_f64 s bits = (s ++ natToLE 8 bits, Except.ok 8)) ∧
    (∀ w n : Nat, (natToLE w n).length = w) ∧
    (∀ w n i : Nat, i < w → (natToLE w n).getD i 0 = n / 256 ^ i % 256) :=
  ⟨write_u8_eq, write_i16_eq, write_u16_eq, write_i32_eq, write_u32_eq, write_i64_eq,
   write_u64_eq, write_f32_eq, write_f64_eq, natToLE_length,
   fun w n i h => natToLE_getD w n i h⟩

/-- C9 witness: byte 1 of the 4-byte buffer for `0x12345678` is the
second-least-significant byte, as little-endian requires. -/
theorem helpers_scalar_encode_le_witness :
    (natToLE 4 305419896).getD 1 0 = 305419896 / 256 ^ 1 % 256 :=
  helpers_scalar_encode_le.2.2.2.2.2.2.2.2.2.2 4 305419896 1 (by decide)

